import Mathlib

/-!
Shallow embedding of the kitara fretboard-to-keyboard mapping engine
(src/main.rs): constants, the `Mapping` structure, configuration loading,
MIDI note decoding, fret resolution, key-action dispatch, and the
per-message processing performed by the listener callback.

Rust panics (out-of-bounds indexing, failing `unwrap`) are modelled as
`none` / `Outcome.panicked`; the keyboard-emulation side effects of the
`enigo` collaborator are reified as a list of `EmuCall` values; the
per-event `println!` diagnostic is reified as a `Diag` record.
-/

namespace Kitara

/-- src/main.rs line 15: number of frets in each string, 22 + open string. -/
def NUM_FRETS : Nat := 23

/-- src/main.rs line 17: number of strings. -/
def NUM_STRINGS : Nat := 6

/-- src/main.rs line 19: standard guitar tuning expressed in midi notes,
high string first (E B G D A E). Notes are `i32` in the source, hence `Int`. -/
def TUNING_NOTES_HIGH_TO_LOW : List Int := [64, 59, 55, 50, 45, 40]

/-- src/main.rs lines 22-25: modifier key tokens. -/
def SHIFT : String := "SH"

def CTRL : String := "CT"

def CMD : String := "CM"

def ALT : String := "AL"

/-- src/main.rs lines 28-36: whitespace and other key tokens. -/
def SPACE : String := "SP"

def TAB : String := "TA"

def BACKSPACE : String := "BA"

def ENTER : String := "EN"

def ESCAPE : String := "ES"

def ARROW_LEFT : String := "LE"

def ARROW_UP : String := "UP"

def ARROW_RIGHT : String := "RI"

def ARROW_DOWN : String := "DO"

/-- src/main.rs line 39: midi status nibble for note-on (press). -/
def STATUS_PRESS : Nat := 9

/-- src/main.rs line 40: midi status nibble for note-off (release). -/
def STATUS_RELEASE : Nat := 8

/-- src/main.rs lines 42-46: the `Mapping` struct. `midi_channels` holds one
`u8` channel per configuration row; `keymap` is the one-dimensional packed
fretboard, position `i * NUM_FRETS + j` holding the token of string `i`,
fret `j`. -/
structure Mapping where
  midi_channels : List Nat
  keymap : List String
  deriving DecidableEq

/-- Rust's `str::parse::<u8>()`: an optional leading `+` sign followed by at
least one ASCII digit, value at most 255 (overflow is a parse error); any
other character, an empty string, or a lone sign fails. `none` models
`Err(ParseIntError)`. -/
def parse_u8_digits (cs : List Char) : Option Nat :=
  if cs.isEmpty then none
  else if cs.all Char.isDigit then
    let n := cs.foldl (fun acc c => acc * 10 + (c.toNat - 48)) 0
    if n ≤ 255 then some n else none
  else none

def parse_u8 (s : String) : Option Nat :=
  match s.toList with
  | '+' :: rest => parse_u8_digits rest
  | cs => parse_u8_digits cs

/-- Field access `rows[i][j]` on the parsed records: `none` models the Rust
panic when the row or the field does not exist. -/
def cellAt (rows : List (List String)) (i j : Nat) : Option String :=
  (rows[i]?).bind fun row => row[j]?

/-- The flat positions `0 .. NUM_STRINGS * NUM_FRETS - 1` written by the
nested loop of `load_fretboard_mapping` (src/main.rs lines 76-80). -/
def fretPositions : List Nat := List.range (NUM_STRINGS * NUM_FRETS)

/-- src/main.rs lines 69-89, `load_fretboard_mapping`, taken at the level of
the parsed records `rows` (the csv crate itself is the out-of-scope
configuration collaborator). The nested loop writes
`fretboard[i * NUM_FRETS + j] = rows[i][j + 1]` for every `i < 6`, `j < 23`,
so flat position `p` holds cell `(p / NUM_FRETS, p % NUM_FRETS + 1)`;
`midi_channels` maps `row[0].parse::<u8>().unwrap()` over every row. Any
out-of-bounds access or failed parse is a Rust panic, modelled as `none`.
Note the function never returns `Err`: its `CsvError` path is dead code. -/
def load_fretboard_mapping (rows : List (List String)) : Option Mapping :=
  if (fretPositions.all fun p => (cellAt rows (p / NUM_FRETS) (p % NUM_FRETS + 1)).isSome)
      && (rows.all fun row => ((row[0]?).bind parse_u8).isSome) then
    some ⟨rows.map fun row => ((row[0]?).bind parse_u8).getD 0,
          fretPositions.map fun p => (cellAt rows (p / NUM_FRETS) (p % NUM_FRETS + 1)).getD ""⟩
  else none

/-- The mapping-table query as performed at src/main.rs lines 158-162 for an
in-range fret: the packed one-dimensional lookup `keymap[s * NUM_FRETS + f]`. -/
def token_at (m : Mapping) (s f : Nat) : Option String :=
  m.keymap[s * NUM_FRETS + f]?

/-- The `enigo::Key` values used by src/main.rs lines 165-184. -/
inductive Key where
  | shift | control | alt | meta
  | space | tab | backspace | ret | escape
  | leftArrow | upArrow | rightArrow | downArrow
  | layout (c : Char)
  deriving DecidableEq

/-- One call against the keyboard-emulation collaborator (`enigo`):
`key_down`, `key_up` or `key_click`. -/
inductive EmuCall where
  | key_down (k : Key)
  | key_up (k : Key)
  | key_click (k : Key)
  deriving DecidableEq

/-- src/main.rs lines 232-239: `press_release_key` emits key-down on press
status and key-up on any other status. -/
def press_release_key (status : Nat) (key : Key) : List EmuCall :=
  if status = STATUS_PRESS then [EmuCall.key_down key] else [EmuCall.key_up key]

/-- src/main.rs lines 241-246: `click_key` emits a click on press status and
nothing otherwise. -/
def click_key (status : Nat) (key : Key) : List EmuCall :=
  if status = STATUS_PRESS then [EmuCall.key_click key] else []

/-- The `match key` dispatch at src/main.rs lines 163-187: the named tokens
are compared in source order; any other non-empty token is clicked as the
layout key of its first character (`key.chars().next().unwrap()`); the empty
token does nothing. -/
def dispatch_key (status : Nat) (key : String) : List EmuCall :=
  if key = SHIFT then press_release_key status Key.shift
  else if key = CTRL then press_release_key status Key.control
  else if key = ALT then press_release_key status Key.alt
  else if key = CMD then press_release_key status Key.meta
  else if key = SPACE then click_key status Key.space
  else if key = TAB then click_key status Key.tab
  else if key = BACKSPACE then click_key status Key.backspace
  else if key = ENTER then click_key status Key.ret
  else if key = ESCAPE then click_key status Key.escape
  else if key = ARROW_LEFT then click_key status Key.leftArrow
  else if key = ARROW_UP then click_key status Key.upArrow
  else if key = ARROW_RIGHT then click_key status Key.rightArrow
  else if key = ARROW_DOWN then click_key status Key.downArrow
  else if key.isEmpty then []
  else click_key status (Key.layout key.front)

/-- src/main.rs line 157: `TUNING_NOTES_HIGH_TO_LOW[gtr_string]` followed by
the subtraction; `none` models the index panic when `gtr_string ≥ 6`. -/
def resolve_fret (gtr_string : Nat) (note : Int) : Option Int :=
  (TUNING_NOTES_HIGH_TO_LOW[gtr_string]?).map fun t => note - t

/-- The Rust cast `gtr_fret as usize` on a 64-bit target: an `i32` value is
sign-extended and reinterpreted, i.e. taken modulo `2 ^ 64`. -/
def usize_of_i32 (v : Int) : Nat := (v % (2 ^ 64)).toNat

/-- The per-event diagnostic line printed at src/main.rs lines 189-204. -/
structure Diag where
  gtr_string : Nat
  gtr_fret : Int
  channel : Nat
  note : Int
  key : String
  action : String
  deriving DecidableEq

/-- src/main.rs lines 195-198: the printed key, `<unmapped>` for the empty token. -/
def diag_key (key : String) : String :=
  if key.length = 0 then "<unmapped>" else key

/-- src/main.rs lines 199-203: the printed action name. -/
def diag_action (status : Nat) : String :=
  if status = STATUS_PRESS then "press"
  else if status = STATUS_RELEASE then "release"
  else "???"

/-- src/main.rs lines 154-205, `handle_robo_typing`: resolve the fret,
compute the packed keymap position (the `as usize` cast wraps negative frets;
the `usize` sum is taken modulo `2 ^ 64`, the release-profile wrapping
semantics — a debug build would already panic on the add overflow), look the
token up (`none` models the index panic), dispatch, and report the
diagnostic. -/
def handle_robo_typing (m : Mapping) (channel : Nat) (status : Nat) (gtr_string : Nat)
    (note : Int) : Option (List EmuCall × Diag) :=
  match resolve_fret gtr_string note with
  | none => none
  | some gtr_fret =>
    let keymap_position := (gtr_string * NUM_FRETS + usize_of_i32 gtr_fret) % (2 ^ 64)
    match m.keymap[keymap_position]? with
    | none => none
    | some key =>
      some (dispatch_key status key,
            ⟨gtr_string, gtr_fret, channel, note, diag_key key, diag_action status⟩)

/-- A decoded MIDI event: `channel = (byte0 & 0x0F) + 1`,
`status = byte0 >> 4` (kept only when it is 8 or 9), `note = byte1` widened
to `i32`. -/
structure MidiEvent where
  channel : Nat
  status : Nat
  note : Int
  deriving DecidableEq

/-- The note decoder of the listener callback, src/main.rs lines 119-133:
messages shorter than 2 bytes and status nibbles other than 8 and 9 produce
no event. For a byte `b0 < 256`, `b0 & 0x0F = b0 % 16` and `b0 >> 4 = b0 / 16`. -/
def decode (message : List Nat) : Option MidiEvent :=
  match message with
  | b0 :: b1 :: _ =>
    if b0 / 16 = STATUS_PRESS ∨ b0 / 16 = STATUS_RELEASE then
      some ⟨b0 % 16 + 1, b0 / 16, (b1 : Int)⟩
    else none
  | _ => none

/-- Rust's `Iterator::position` as used at src/main.rs line 136: index of the
first element equal to `channel`. -/
def position_of (l : List Nat) (channel : Nat) : Option Nat :=
  match l with
  | [] => none
  | x :: t => if x = channel then some 0 else (position_of t channel).map (· + 1)

/-- The observable outcome of one delivery of a raw MIDI message to the
callback of src/main.rs lines 118-147. -/
inductive Outcome where
  | ignored
  | failedChannel (channel : Nat)
  | typed (calls : List EmuCall) (diag : Diag)
  | panicked
  deriving DecidableEq

/-- One run of the listener callback body (src/main.rs lines 118-147) on a
raw message: decode, match the channel against the configured ones
(`Failed mapping channel` is `Outcome.failedChannel`), and hand over to
`handle_robo_typing`. -/
def process_message (m : Mapping) (message : List Nat) : Outcome :=
  match decode message with
  | none => Outcome.ignored
  | some e =>
    match position_of m.midi_channels e.channel with
    | some gtr_string =>
      match handle_robo_typing m e.channel e.status gtr_string e.note with
      | some (calls, diag) => Outcome.typed calls diag
      | none => Outcome.panicked
    | none => Outcome.failedChannel e.channel

/-- The emulation calls an outcome performs. -/
def outcome_calls : Outcome → List EmuCall
  | Outcome.typed calls _ => calls
  | _ => []

/-- Per-character lowercasing; Rust's `str::to_lowercase` restricted to the
ASCII range the port names use. -/
def lower_chars (s : String) : List Char := s.toList.map Char.toLower

/-- Rust's `str::contains(&str)`: substring containment. -/
def contains_sub (hay need : List Char) : Bool :=
  (List.range (hay.length + 1)).any fun i => need.isPrefixOf (hay.drop i)

/-- The filter condition of src/main.rs lines 99-107: the lowercased port
name contains the lowercased requested device name. -/
def port_matches (name device : String) : Bool :=
  contains_sub (lower_chars name) (lower_chars device)

/-- src/main.rs lines 99-107: the matching ports, in enumeration order. -/
def matching_ports (names : List String) (device : String) : List String :=
  names.filter fun n => port_matches n device

/-- src/main.rs lines 110-113: select the first matching port; `none` models
the fatal `No input port found matching ...` error return. -/
def select_in_port (names : List String) (device : String) : Option String :=
  (matching_ports names device).head?

/-! Concrete fixtures used by the closed theorems and witnesses. -/

/-- A configuration row: one channel field followed by 23 empty fret tokens. -/
def mkRow (c : String) : List String := c :: List.replicate 23 ""

/-- A 6 × 24 table whose first channel field is `"0"`, outside `[1,16]`. -/
def rows_ch0 : List (List String) :=
  [mkRow "0", mkRow "2", mkRow "3", mkRow "4", mkRow "5", mkRow "6"]

/-- A 6-row table whose rows have 25 fields instead of 24. -/
def rows_extra_col : List (List String) :=
  (["1", "2", "3", "4", "5", "6"]).map fun c => c :: List.replicate 24 ""

/-- A table with only 5 rows. -/
def rows_five : List (List String) :=
  [mkRow "1", mkRow "2", mkRow "3", mkRow "4", mkRow "5"]

/-- A table with 7 rows. -/
def rows_seven : List (List String) :=
  [mkRow "1", mkRow "2", mkRow "3", mkRow "4", mkRow "5", mkRow "6", mkRow "7"]

/-- A well-formed 6 × 24 table with token `"Q"` at string 0, fret 0. -/
def rows_q : List (List String) :=
  ("1" :: "Q" :: List.replicate 22 "") ::
    [mkRow "2", mkRow "3", mkRow "4", mkRow "5", mkRow "6"]

/-- A concrete mapping: channels 1..6, token `"Q"` at packed position 23
(string 1, fret 0), every other cell unmapped. -/
def mapQ : Mapping :=
  ⟨[1, 2, 3, 4, 5, 6], List.replicate 23 "" ++ "Q" :: List.replicate 114 ""⟩

/-! Helper lemmas. -/

theorem position_of_eq_none_of_not_mem {l : List Nat} {c : Nat} (h : c ∉ l) :
    position_of l c = none := by
  induction l with
  | nil => rfl
  | cons a t ih =>
    simp only [List.mem_cons, not_or] at h
    simp [position_of, Ne.symm h.1, ih h.2]

theorem head?_filter_eq_find? {α : Type} (p : α → Bool) (l : List α) :
    (l.filter p).head? = l.find? p := by
  induction l with
  | nil => rfl
  | cons a t ih =>
    cases hpa : p a <;> simp [List.filter_cons, List.find?_cons, hpa, ih]

/-- C5: for every string index `s < 6` and MIDI note `n`, the resolved fret is
`n` minus the tuning note of string `s`, the tuning being
`[64, 59, 55, 50, 45, 40]` high string first; in particular string 0 with
note 64 gives fret 0 and with note 67 gives fret 3. -/
theorem c5_fret_resolution (s : Nat) (hs : s < 6) (note : Int) :
    resolve_fret s note = some (note - List.get [(64 : Int), 59, 55, 50, 45, 40] ⟨s, hs⟩) ∧
    resolve_fret 0 64 = some 0 ∧ resolve_fret 0 67 = some 3 := by
  have h6 : s = 0 ∨ s = 1 ∨ s = 2 ∨ s = 3 ∨ s = 4 ∨ s = 5 := by omega
  rcases h6 with rfl | rfl | rfl | rfl | rfl | rfl <;>
    exact ⟨rfl, rfl, rfl⟩

theorem c5_fret_resolution_witness :
    resolve_fret 2 60 =
      some (60 - List.get [(64 : Int), 59, 55, 50, 45, 40] ⟨2, by decide⟩) ∧
    resolve_fret 0 64 = some 0 ∧ resolve_fret 0 67 = some 3 :=
  c5_fret_resolution 2 (by decide) 60

/-- C3: for every key token, the dispatcher emits exactly one key-down on
press and one key-up on release for the modifier tokens SH, CT, AL, CM;
exactly one key-click on press and nothing on release for every other
non-empty token (a token outside the named set is clicked as the layout key
of its first character); and nothing at all, for either status, for the
empty token. -/
theorem c3_dispatcher (key : String) :
    ((key = SHIFT ∨ key = CTRL ∨ key = ALT ∨ key = CMD) →
      ∃ k, dispatch_key STATUS_PRESS key = [EmuCall.key_down k] ∧
        dispatch_key STATUS_RELEASE key = [EmuCall.key_up k]) ∧
    (¬(key = SHIFT ∨ key = CTRL ∨ key = ALT ∨ key = CMD) → key ≠ "" →
      (∃ k, dispatch_key STATUS_PRESS key = [EmuCall.key_click k]) ∧
        dispatch_key STATUS_RELEASE key = [] ∧
        (key ≠ SPACE → key ≠ TAB → key ≠ BACKSPACE → key ≠ ENTER → key ≠ ESCAPE →
          key ≠ ARROW_LEFT → key ≠ ARROW_UP → key ≠ ARROW_RIGHT → key ≠ ARROW_DOWN →
          dispatch_key STATUS_PRESS key = [EmuCall.key_click (Key.layout key.front)])) ∧
    (key = "" → ∀ status, dispatch_key status key = []) := by
  refine ⟨?_, ?_, ?_⟩
  · rintro (rfl | rfl | rfl | rfl)
    · exact ⟨Key.shift, rfl, rfl⟩
    · exact ⟨Key.control, rfl, rfl⟩
    · exact ⟨Key.alt, rfl, rfl⟩
    · exact ⟨Key.meta, rfl, rfl⟩
  · intro hmod hne
    have h1 : ¬key = SHIFT := fun h => hmod (Or.inl h)
    have h2 : ¬key = CTRL := fun h => hmod (Or.inr (Or.inl h))
    have h3 : ¬key = ALT := fun h => hmod (Or.inr (Or.inr (Or.inl h)))
    have h4 : ¬key = CMD := fun h => hmod (Or.inr (Or.inr (Or.inr h)))
    have hemp : ¬key.isEmpty := by
      simpa [String.isEmpty_iff] using hne
    refine ⟨?_, ?_, ?_⟩
    · by_cases h5 : key = SPACE
      · exact ⟨Key.space, by rw [h5]; decide⟩
      by_cases h6 : key = TAB
      · exact ⟨Key.tab, by rw [h6]; decide⟩
      by_cases h7 : key = BACKSPACE
      · exact ⟨Key.backspace, by rw [h7]; decide⟩
      by_cases h8 : key = ENTER
      · exact ⟨Key.ret, by rw [h8]; decide⟩
      by_cases h9 : key = ESCAPE
      · exact ⟨Key.escape, by rw [h9]; decide⟩
      by_cases h10 : key = ARROW_LEFT
      · exact ⟨Key.leftArrow, by rw [h10]; decide⟩
      by_cases h11 : key = ARROW_UP
      · exact ⟨Key.upArrow, by rw [h11]; decide⟩
      by_cases h12 : key = ARROW_RIGHT
      · exact ⟨Key.rightArrow, by rw [h12]; decide⟩
      by_cases h13 : key = ARROW_DOWN
      · exact ⟨Key.downArrow, by rw [h13]; decide⟩
      refine ⟨Key.layout key.front, ?_⟩
      simp [dispatch_key, h1, h2, h3, h4, h5, h6, h7, h8, h9, h10, h11, h12, h13, hemp,
        click_key]
    · simp only [dispatch_key, h1, h2, h3, h4, if_neg, if_false]
      split_ifs <;> rfl
    · intro h5 h6 h7 h8 h9 h10 h11 h12 h13
      simp [dispatch_key, h1, h2, h3, h4, h5, h6, h7, h8, h9, h10, h11, h12, h13, hemp,
        click_key]
  · rintro rfl status
    rfl

theorem c3_dispatcher_witness :
    (∃ k, dispatch_key STATUS_PRESS "SH" = [EmuCall.key_down k] ∧
      dispatch_key STATUS_RELEASE "SH" = [EmuCall.key_up k]) ∧
    (∃ k, dispatch_key STATUS_PRESS "ab" = [EmuCall.key_click k]) ∧
    dispatch_key STATUS_RELEASE "ab" = [] ∧
    dispatch_key STATUS_PRESS "" = [] := by
  refine ⟨(c3_dispatcher "SH").1 (Or.inl rfl), ?_⟩
  have h := (c3_dispatcher "ab").2.1 (by decide) (by decide)
  exact ⟨h.1, h.2.1, (c3_dispatcher "").2.2 rfl STATUS_PRESS⟩

/-- C4: for every raw message of at least 2 bytes the decoder yields
`channel = byte0 % 16 + 1` (that is, `(byte0 & 0x0F) + 1`) and `note = byte1`,
and yields an event exactly when the status nibble `byte0 / 16` (that is,
`byte0 >> 4`) is 9 (press) or 8 (release); any other nibble, and any message
shorter than 2 bytes, yields no event and the callback does nothing further. -/
theorem c4_decoder (b0 b1 : Nat) (rest : List Nat) :
    ((b0 / 16 = STATUS_PRESS →
        decode (b0 :: b1 :: rest) = some ⟨b0 % 16 + 1, STATUS_PRESS, (b1 : Int)⟩) ∧
      (b0 / 16 = STATUS_RELEASE →
        decode (b0 :: b1 :: rest) = some ⟨b0 % 16 + 1, STATUS_RELEASE, (b1 : Int)⟩) ∧
      (b0 / 16 ≠ STATUS_PRESS → b0 / 16 ≠ STATUS_RELEASE →
        decode (b0 :: b1 :: rest) = none ∧
          ∀ m : Mapping, process_message m (b0 :: b1 :: rest) = Outcome.ignored) ∧
      (∀ e, decode (b0 :: b1 :: rest) = some e →
        e.channel = b0 % 16 + 1 ∧ e.note = (b1 : Int) ∧
          (e.status = STATUS_PRESS ∨ e.status = STATUS_RELEASE))) ∧
    ∀ msg : List Nat, msg.length < 2 →
      decode msg = none ∧ ∀ m : Mapping, process_message m msg = Outcome.ignored := by
  refine ⟨⟨?_, ?_, ?_, ?_⟩, ?_⟩
  · intro h
    simp [decode, h]
  · intro h
    simp [decode, h, STATUS_PRESS, STATUS_RELEASE]
  · intro h9 h8
    have hd : decode (b0 :: b1 :: rest) = none := by
      simp [decode, h9, h8]
    exact ⟨hd, fun m => by simp [process_message, hd]⟩
  · intro e he
    by_cases h : b0 / 16 = STATUS_PRESS ∨ b0 / 16 = STATUS_RELEASE
    · simp only [decode, if_pos h] at he
      injection he with he'
      subst he'
      rcases h with h | h
      · exact ⟨rfl, rfl, Or.inl h⟩
      · exact ⟨rfl, rfl, Or.inr h⟩
    · simp [decode, if_neg h] at he
  · intro msg hlen
    match msg with
    | [] => exact ⟨rfl, fun m => rfl⟩
    | [a] => exact ⟨rfl, fun m => rfl⟩
    | a :: b :: t => simp at hlen; omega

theorem c4_decoder_witness :
    decode [144, 60] = some ⟨1, STATUS_PRESS, 60⟩ ∧
    decode [128, 60] = some ⟨1, STATUS_RELEASE, 60⟩ ∧
    decode [240, 60] = none ∧ process_message mapQ [240, 60] = Outcome.ignored ∧
    decode [7] = none ∧ process_message mapQ [7] = Outcome.ignored := by
  have ha := c4_decoder 144 60 []
  have hb := c4_decoder 128 60 []
  have hc := c4_decoder 240 60 []
  exact ⟨ha.1.1 (by decide), hb.1.2.1 (by decide),
    (hc.1.2.2.1 (by decide) (by decide)).1, (hc.1.2.2.1 (by decide) (by decide)).2 mapQ,
    (ha.2 [7] (by decide)).1, (ha.2 [7] (by decide)).2 mapQ⟩

/-- C8: a decoded press or release event whose channel is none of the
configured per-string channels is reported as a failed-channel diagnostic and
discarded: no emulation call is made, the outcome is not a panic (so the loop
keeps running), and the mapping — a pure value here, read-only in the source —
is untouched. -/
theorem c8_unknown_channel (m : Mapping) (message : List Nat) (e : MidiEvent)
    (hdec : decode message = some e) (hch : e.channel ∉ m.midi_channels) :
    process_message m message = Outcome.failedChannel e.channel ∧
    outcome_calls (process_message m message) = [] ∧
    process_message m message ≠ Outcome.panicked := by
  have hpos : position_of m.midi_channels e.channel = none :=
    position_of_eq_none_of_not_mem hch
  have h : process_message m message = Outcome.failedChannel e.channel := by
    simp [process_message, hdec, hpos]
  refine ⟨h, ?_, ?_⟩
  · rw [h]; rfl
  · rw [h]; simp

theorem c8_unknown_channel_witness :
    process_message mapQ [153, 60] = Outcome.failedChannel 10 ∧
    outcome_calls (process_message mapQ [153, 60]) = [] := by
  have h := c8_unknown_channel mapQ [153, 60] ⟨10, 9, 60⟩ (by decide) (by decide)
  exact ⟨h.1, h.2.1⟩

/-- C9: a port matches exactly when its lowercased name contains the
lowercased requested substring; with no match the selection is the fatal
device-not-found error (`none`), otherwise the first matching port in
enumeration order is selected; with names `["Foo MIDI", "Bar-kitara-Device"]`
and request `"kitara"` the second port is selected. -/
theorem c9_device_selection (names : List String) (device : String) :
    (select_in_port names device = none ↔
      ∀ n ∈ names, port_matches n device = false) ∧
    (∀ i (hi : i < names.length),
      port_matches (names.get ⟨i, hi⟩) device = true →
      (∀ j (hj : j < names.length), j < i →
        port_matches (names.get ⟨j, hj⟩) device = false) →
      select_in_port names device = some (names.get ⟨i, hi⟩)) ∧
    select_in_port ["Foo MIDI", "Bar-kitara-Device"] "kitara" =
      some "Bar-kitara-Device" := by
  refine ⟨?_, ?_, by decide⟩
  · rw [select_in_port, matching_ports, List.head?_eq_none_iff, List.filter_eq_nil_iff]
    constructor
    · intro h n hn
      simpa using h n hn
    · intro h n hn
      simp [h n hn]
  · induction names with
    | nil => intro i hi; simp at hi
    | cons a t ih =>
      intro i hi hmatch hbefore
      match i with
      | 0 =>
        simp only [List.get] at hmatch
        simp [select_in_port, matching_ports, List.filter_cons, hmatch, List.get]
      | k + 1 =>
        have hk : k < t.length := by
          simp only [List.length_cons] at hi
          omega
        have ha : port_matches a device = false := by
          have := hbefore 0 (by simp) (by omega)
          simpa [List.get] using this
        have hsel : select_in_port (a :: t) device = select_in_port t device := by
          simp [select_in_port, matching_ports, List.filter_cons, ha]
        rw [hsel]
        exact ih k hk hmatch
          (fun j hj hlt =>
            hbefore (j + 1) (by simp only [List.length_cons]; omega) (by omega))

theorem c9_device_selection_witness :
    select_in_port ["Foo MIDI", "Bar-kitara-Device"] "kitara" =
      some "Bar-kitara-Device" := by
  have h := (c9_device_selection ["Foo MIDI", "Bar-kitara-Device"] "kitara").2.1
    1 (by decide) (by decide) (by decide)
  simpa [List.get] using h

/-- C10: two raw messages of length at least 2 that agree on their first two
bytes decode to the same event and are processed identically — the same
emulation calls, the same diagnostic, the same outcome — so trailing bytes
(in particular the note-on velocity byte) never influence behaviour, and a
note-on with velocity 0 still decodes as a press. -/
theorem c10_trailing_bytes (m : Mapping) (m1 m2 : List Nat)
    (hl1 : 2 ≤ m1.length) (hl2 : 2 ≤ m2.length)
    (hb0 : m1[0]? = m2[0]?) (hb1 : m1[1]? = m2[1]?) :
    decode m1 = decode m2 ∧ process_message m m1 = process_message m m2 ∧
    decode [144, 64, 0] = some ⟨1, STATUS_PRESS, 64⟩ := by
  match m1, m2 with
  | a1 :: b1 :: t1, a2 :: b2 :: t2 =>
    simp only [List.getElem?_cons_zero, List.getElem?_cons_succ, Option.some_inj] at hb0 hb1
    subst hb0; subst hb1
    have hd : decode (a1 :: b1 :: t1) = decode (a1 :: b1 :: t2) := rfl
    exact ⟨hd, by simp [process_message, hd], by decide⟩
  | [], _ => simp at hl1
  | [a], _ => simp at hl1
  | _ :: _ :: _, [] => simp at hl2
  | _ :: _ :: _, [a] => simp at hl2

theorem c10_trailing_bytes_witness :
    decode [144, 64, 0] = decode [144, 64, 100] ∧
    process_message mapQ [144, 64, 0] = process_message mapQ [144, 64, 100] := by
  have h := c10_trailing_bytes mapQ [144, 64, 0] [144, 64, 100]
    (by decide) (by decide) rfl rfl
  exact ⟨h.1, h.2.1⟩

/-- C6: for a well-formed table (6 rows of 24 fields) whose Mapping
construction succeeded, the token the packed keymap returns for every
string `s < 6` and fret `f < 23` is exactly the field in row `s`,
column `f + 1` of the input table, unmodified. -/
theorem c6_round_trip (rows : List (List String)) (m : Mapping)
    (_hrows : rows.length = 6) (_hcols : ∀ row ∈ rows, row.length = 24)
    (hload : load_fretboard_mapping rows = some m)
    (s f : Nat) (hs : s < 6) (hf : f < 23) :
    token_at m s f = cellAt rows s (f + 1) := by
  unfold load_fretboard_mapping at hload
  split at hload
  case isTrue hguard =>
    injection hload with hm
    subst hm
    have hall : ∀ p ∈ fretPositions,
        ((cellAt rows (p / NUM_FRETS) (p % NUM_FRETS + 1)).isSome : Prop) := by
      have h1 := ((Bool.and_eq_true _ _).mp hguard).1
      simpa [List.all_eq_true] using h1
    have hlt : s * NUM_FRETS + f < NUM_STRINGS * NUM_FRETS := by
      simp only [NUM_FRETS, NUM_STRINGS]
      omega
    have hdiv : (s * NUM_FRETS + f) / NUM_FRETS = s := by
      simp only [NUM_FRETS]
      omega
    have hmod : (s * NUM_FRETS + f) % NUM_FRETS = f := by
      simp only [NUM_FRETS]
      omega
    have hmem : (s * NUM_FRETS + f) ∈ fretPositions := by
      simpa [fretPositions, List.mem_range] using hlt
    have hsome := hall _ hmem
    rw [hdiv, hmod] at hsome
    simp only [token_at, List.getElem?_map]
    have hr : fretPositions[s * NUM_FRETS + f]? = some (s * NUM_FRETS + f) := by
      rw [fretPositions, List.getElem?_range hlt]
    rw [hr]
    simp only [Option.map_some']
    rw [hdiv, hmod]
    obtain ⟨t, ht⟩ := Option.isSome_iff_exists.mp hsome
    rw [ht]
    rfl
  case isFalse => exact Option.noConfusion hload

theorem c6_round_trip_witness :
    token_at ⟨[1, 2, 3, 4, 5, 6], "Q" :: List.replicate 137 ""⟩ 0 0 = cellAt rows_q 0 1 :=
  c6_round_trip rows_q ⟨[1, 2, 3, 4, 5, 6], "Q" :: List.replicate 137 ""⟩
    (by decide) (by decide) (by decide) 0 0 (by decide) (by decide)

set_option maxRecDepth 20000 in
/-- C1: the code does NOT report an out-of-range fret nor discard the event
before the table lookup. With channels 1..6 and `"Q"` configured at string 1,
fret 0 (packed position 23): string 0 with note 87 resolves to fret 23,
outside `[0,23)`, yet the lookup reads packed position 23 — another string's
cell — and emits its key with a diagnostic claiming fret 23; string 0 with
note 40 resolves to fret −24, whose `as usize` cast wraps to `2 ^ 64 − 24`,
and the lookup panics (out-of-bounds index) instead of reporting any
diagnostic. -/
theorem c1_out_of_range_fret :
    handle_robo_typing mapQ 1 STATUS_PRESS 0 87 =
      some ([EmuCall.key_click (Key.layout 'Q')], ⟨0, 23, 1, 87, "Q", "press"⟩) ∧
    process_message mapQ [144, 87] =
      Outcome.typed [EmuCall.key_click (Key.layout 'Q')] ⟨0, 23, 1, 87, "Q", "press"⟩ ∧
    handle_robo_typing mapQ 1 STATUS_PRESS 0 40 = none ∧
    process_message mapQ [144, 40] = Outcome.panicked := by
  refine ⟨by decide, by decide, by decide, by decide⟩

/-- C2: Mapping construction does NOT validate the claimed conditions. A
6 × 24 table whose first channel field is `"0"` — outside `[1,16]` — is
accepted; a 6-row table with 25 fields per row is accepted; a 5-row table
produces a panic (`none`), not a `ConfigError` result. The source function
checks only what `unwrap` and indexing force: at least 6 rows, at least 24
fields in the first 6 rows, and channel fields parsing as `u8` (any value in
`[0,255]`); its `Err` path is never taken. -/
theorem c2_config_validation :
    load_fretboard_mapping rows_ch0 =
      some ⟨[0, 2, 3, 4, 5, 6], List.replicate 138 ""⟩ ∧
    load_fretboard_mapping rows_extra_col =
      some ⟨[1, 2, 3, 4, 5, 6], List.replicate 138 ""⟩ ∧
    load_fretboard_mapping rows_five = none := by
  refine ⟨by decide, by decide, by decide⟩

/-- C7: a successfully constructed Mapping need NOT have exactly 6 channels:
`midi_channels` maps over every input row, so a 7-row table is accepted and
yields 7 channels (the keymap does hold exactly 6 × 23 = 138 tokens). The
extra channel is live: a note-on on channel 7 selects string index 6 and
panics on the 6-entry tuning table. -/
theorem c7_channel_invariant :
    load_fretboard_mapping rows_seven =
      some ⟨[1, 2, 3, 4, 5, 6, 7], List.replicate 138 ""⟩ ∧
    (Mapping.mk [1, 2, 3, 4, 5, 6, 7] (List.replicate 138 "")).midi_channels.length = 7 ∧
    (Mapping.mk [1, 2, 3, 4, 5, 6, 7] (List.replicate 138 "")).keymap.length =
      NUM_STRINGS * NUM_FRETS ∧
    process_message (Mapping.mk [1, 2, 3, 4, 5, 6, 7] (List.replicate 138 ""))
      [150, 60] = Outcome.panicked := by
  refine ⟨by decide, by decide, by decide, by decide⟩

end Kitara
